import Mathlib

/-!
Shallow embedding of
`src/extensions/typescript-language-features/src/utils/configuration.ts`:
the TypeScript service configuration snapshot (`TypeScriptServiceConfiguration`),
its per-field resolution from the layered VS Code settings store, and the
`isEqualTo` structural equality predicate.

Modelling conventions:
* JavaScript runtime values stored in a settings key are modelled by the
  JSON-like inductive `SettingValue`; JavaScript numbers are modelled as
  rationals (every finite double is a rational), with `Number.isSafeInteger`
  as "denominator 1 and absolute numerator at most 2^53 - 1".
* The `vscode.WorkspaceConfiguration` collaborator is a record of three
  scope maps (default / global / workspace); `get` returns the merged
  effective value with workspace-over-global-over-default precedence, or
  the caller-supplied default when every scope is absent, exactly as the
  VS Code provider contract specifies.  `inspect` exposes the raw scope
  values.  Ambient state (`os.homedir()`) is passed as an explicit
  `homedir` argument.
* Paths follow the POSIX platform model: `path.sep` is `"/"` and
  `path.join` / normalization implement the Node `path.posix` algorithm
  (drop empty and `.` segments, resolve `..`, preserve a leading and a
  trailing separator).
-/

/-- JSON-like runtime values held by the settings store.  JavaScript numbers
are modelled as rationals. -/
inductive SettingValue : Type where
  | str (s : String)
  | num (q : ℚ)
  | bool (b : Bool)
  | null
  | arr (elems : List SettingValue)
  | obj (fields : List (String × SettingValue))
deriving Repr

/-- The three scope values the provider's `inspect` operation exposes for a
key; `none` models an absent (`undefined`) scope override. -/
structure InspectResult : Type where
  defaultValue : Option SettingValue
  globalValue : Option SettingValue
  workspaceValue : Option SettingValue

/-- The layered settings provider (`vscode.WorkspaceConfiguration`): per key,
an optional value at each of the three precedence scopes. -/
structure WorkspaceConfiguration : Type where
  defaultValue : String → Option SettingValue
  globalValue : String → Option SettingValue
  workspaceValue : String → Option SettingValue

/-- Merged effective value of a key: workspace overrides global overrides
default, `none` when no scope sets the key. -/
def WorkspaceConfiguration.effective (c : WorkspaceConfiguration) (key : String) :
    Option SettingValue :=
  match c.workspaceValue key with
  | some v => some v
  | none =>
    match c.globalValue key with
    | some v => some v
    | none => c.defaultValue key

/-- `configuration.get(key, defaultValue)`: the merged effective value, or the
caller's default when the key is absent at every scope. -/
def WorkspaceConfiguration.get (c : WorkspaceConfiguration) (key : String)
    (dflt : SettingValue) : SettingValue :=
  match c.effective key with
  | some v => v
  | none => dflt

/-- `configuration.get(key)` with no default: the merged effective value or
`undefined`. -/
def WorkspaceConfiguration.getOpt (c : WorkspaceConfiguration) (key : String) :
    Option SettingValue :=
  c.effective key

/-- `configuration.inspect(key)`: the raw per-scope values. -/
def WorkspaceConfiguration.inspect (c : WorkspaceConfiguration) (key : String) :
    InspectResult :=
  ⟨c.defaultValue key, c.globalValue key, c.workspaceValue key⟩

/-- A configuration in which no key is set at any scope. -/
def emptyConfig : WorkspaceConfiguration :=
  ⟨fun _ => none, fun _ => none, fun _ => none⟩

/-- `TsServerLogLevel` (configuration.ts line 12). -/
inductive TsServerLogLevel : Type where
  | Off
  | Normal
  | Terse
  | Verbose
deriving DecidableEq, Repr

/-- Model of `String.prototype.toLowerCase` (ASCII letters; the level names
contain only ASCII).  Defined over the character list so that it reduces in
the kernel. -/
def strToLower (s : String) : String := ⟨s.data.map Char.toLower⟩

/-- `TsServerLogLevel.fromString` (configuration.ts line 20).  The argument is
`Option String` so that the JavaScript call sites passing `null`/`undefined`
are representable; the `value && value.toLowerCase()` guard makes the switch
scrutinee falsy for `null`, `undefined` and `""`, which matches no case and
falls through to the default branch. -/
def TsServerLogLevel.fromString (value : Option String) : TsServerLogLevel :=
  match value with
  | none => .Off
  | some s =>
    if s = "" then .Off
    else
      match strToLower s with
      | "normal" => .Normal
      | "terse" => .Terse
      | "verbose" => .Verbose
      | _ => .Off

/-- `TsServerLogLevel.toString` (configuration.ts line 34). -/
def TsServerLogLevel.toString (value : TsServerLogLevel) : String :=
  match value with
  | .Normal => "normal"
  | .Terse => "terse"
  | .Verbose => "verbose"
  | .Off => "off"

/-- `SeparateSyntaxServerConfiguration` (configuration.ts line 49). -/
inductive SeparateSyntaxServerConfiguration : Type where
  | Disabled
  | Enabled
deriving DecidableEq, Repr

example : TsServerLogLevel.fromString (some "VeRbOsE") = .Verbose := rfl
example : TsServerLogLevel.fromString (some "junk") = .Off := rfl
example : TsServerLogLevel.fromString none = .Off := rfl

/-! ### POSIX path model (`path.sep`, `path.join`, `os.homedir`) -/

/-- `path.sep` on the POSIX platform model. -/
def pathSep : String := "/"

/-- Boolean string-prefix test (`String.prototype.startsWith`), over the
character list so that it reduces in the kernel. -/
def strStartsWith (s pre : String) : Bool := pre.data.isPrefixOf s.data

/-- Boolean string-suffix test, over the character list. -/
def strEndsWith (s suf : String) : Bool := suf.data.isSuffixOf s.data

/-- `String.prototype.slice(n)` / dropping the first `n` characters. -/
def strDrop (s : String) (n : Nat) : String := ⟨s.data.drop n⟩

/-- Split a character list on `'/'`. -/
def splitSlashAux (cur : List Char) : List Char → List String
  | [] => [⟨cur.reverse⟩]
  | c :: cs =>
    if c = '/' then ⟨cur.reverse⟩ :: splitSlashAux [] cs
    else splitSlashAux (c :: cur) cs

/-- Split a string into its `'/'`-separated segments. -/
def splitSlash (s : String) : List String := splitSlashAux [] s.data

/-- Join segments with `'/'`. -/
def joinParts : List String → String
  | [] => ""
  | [p] => p
  | p :: rest => p ++ "/" ++ joinParts rest

/-- Core of Node `path.posix.normalize`: drop empty and `"."` segments and
resolve `".."` (popping the previous segment; at the root of an absolute path
a `".."` is discarded, in a relative path leading `".."`s accumulate).  `acc`
holds the processed segments in reverse. -/
def normParts (isAbs : Bool) : List String → List String → List String
  | [], acc => acc.reverse
  | s :: rest, acc =>
    if s = "" ∨ s = "." then normParts isAbs rest acc
    else if s = ".." then
      match acc with
      | t :: acc' =>
        if t = ".." then normParts isAbs rest (s :: t :: acc')
        else normParts isAbs rest acc'
      | [] => if isAbs then normParts isAbs rest [] else normParts isAbs rest [s]
    else normParts isAbs rest (s :: acc)

/-- Node `path.posix.normalize`: resolve `"."`/`".."` segments and collapse
duplicate separators, preserving a leading and a trailing separator. -/
def normalizePath (p : String) : String :=
  if p = "" then "."
  else
    let isAbs := strStartsWith p "/"
    let trailing := strEndsWith p "/"
    let body := joinParts (normParts isAbs (splitSlash p) [])
    if isAbs then
      if body = "" then "/"
      else if trailing then "/" ++ body ++ "/" else "/" ++ body
    else
      if body = "" then (if trailing then "./" else ".")
      else if trailing then body ++ "/" else body

/-- Node `path.posix.join` of two segments: empty segments are skipped, the
rest are joined with the separator and normalized; with no non-empty segment
the result is `"."`. -/
def pathJoin (a b : String) : String :=
  let parts := [a, b].filter (fun s => !(s == ""))
  if parts.isEmpty then "." else normalizePath (joinParts parts)

example : pathJoin "/home/u" "sdks/ts" = "/home/u/sdks/ts" := rfl
example : pathJoin "/home/u" "" = "/home/u" := rfl
example : pathJoin "/home/u" "../v/x" = "/home/v/x" := rfl
example : normalizePath "a/.." = "." := rfl

/-! ### Field resolution (`TypeScriptServiceConfiguration.read*` / `extract*`)

Ambient state (`os.homedir()`) is an explicit `homedir` argument.  Helper
`get*` readers model the type the TypeScript code declares for the key: a
stored value of the wrong runtime type degrades to the default, which is how
every claim-relevant well-typed or absent input behaves. -/

/-- Stored string at the key, or the given default when the key is absent or
holds a non-string. -/
def getStringOr (c : WorkspaceConfiguration) (key dflt : String) : String :=
  match c.get key (.str dflt) with
  | .str s => s
  | _ => dflt

/-- Stored string at the key, or `null`/`undefined`. -/
def getStringOrNull (c : WorkspaceConfiguration) (key : String) : Option String :=
  match c.effective key with
  | some (.str s) => some s
  | _ => none

/-- Stored boolean at the key, or the given default. -/
def getBoolOr (c : WorkspaceConfiguration) (key : String) (dflt : Bool) : Bool :=
  match c.get key (.bool dflt) with
  | .bool b => b
  | _ => dflt

/-- Stored string array at the key, or the empty default. -/
def getStringListOr (c : WorkspaceConfiguration) (key : String) : List String :=
  match c.effective key with
  | some (.arr vs) => vs.filterMap (fun v => match v with | .str s => some s | _ => none)
  | _ => []

/-- `fixPathPrefixes` (configuration.ts line 121): a value starting with the
home shorthand (`'~' + path.sep`) is rewritten to the platform join of the
home directory and the remainder; every other value passes through. -/
def fixPathPrefixes (homedir : String) (inspectValue : String) : String :=
  match (["~" ++ pathSep]).find? (fun p => strStartsWith inspectValue p) with
  | some p => pathJoin homedir (strDrop inspectValue p.length)
  | none => inspectValue

/-- `extractGlobalTsdk` (configuration.ts line 131): only the global-scope
override of `typescript.tsdk`, and only when it is a string. -/
def extractGlobalTsdk (homedir : String) (c : WorkspaceConfiguration) :
    Option String :=
  match (c.inspect "typescript.tsdk").globalValue with
  | some (.str s) => some (fixPathPrefixes homedir s)
  | _ => none

/-- `extractLocalTsdk` (configuration.ts line 139): only the workspace-scope
override of `typescript.tsdk`, and only when it is a string. -/
def extractLocalTsdk (homedir : String) (c : WorkspaceConfiguration) :
    Option String :=
  match (c.inspect "typescript.tsdk").workspaceValue with
  | some (.str s) => some (fixPathPrefixes homedir s)
  | _ => none

/-- `readTsServerLogLevel` (configuration.ts line 147). -/
def readTsServerLogLevel (c : WorkspaceConfiguration) : TsServerLogLevel :=
  TsServerLogLevel.fromString (some (getStringOr c "typescript.tsserver.log" "off"))

/-- `readTsServerPluginPaths` (configuration.ts line 152). -/
def readTsServerPluginPaths (c : WorkspaceConfiguration) : List String :=
  getStringListOr c "typescript.tsserver.pluginPaths"

/-- `readCheckJs` (configuration.ts line 156). -/
def readCheckJs (c : WorkspaceConfiguration) : Bool :=
  getBoolOr c "javascript.implicitProjectConfig.checkJs" false

/-- `readExperimentalDecorators` (configuration.ts line 160). -/
def readExperimentalDecorators (c : WorkspaceConfiguration) : Bool :=
  getBoolOr c "javascript.implicitProjectConfig.experimentalDecorators" false

/-- `readImplicitStrictNullChecks` (configuration.ts line 164). -/
def readImplicitStrictNullChecks (c : WorkspaceConfiguration) : Bool :=
  getBoolOr c "js/ts.implicitProjectConfig.strictNullChecks" true

/-- `readImplicitStrictFunctionTypes` (configuration.ts line 168). -/
def readImplicitStrictFunctionTypes (c : WorkspaceConfiguration) : Bool :=
  getBoolOr c "js/ts.implicitProjectConfig.strictFunctionTypes" true

/-- `readNpmLocation` (configuration.ts line 172). -/
def readNpmLocation (c : WorkspaceConfiguration) : Option String :=
  getStringOrNull c "typescript.npm"

/-- `readDisableAutomaticTypeAcquisition` (configuration.ts line 176). -/
def readDisableAutomaticTypeAcquisition (c : WorkspaceConfiguration) : Bool :=
  getBoolOr c "typescript.disableAutomaticTypeAcquisition" false

/-- `extractLocale` (configuration.ts line 180). -/
def extractLocale (c : WorkspaceConfiguration) : Option String :=
  getStringOrNull c "typescript.locale"

/-- `readUseSeparateSyntaxServer` (configuration.ts line 184): the key is read
with default `true`; only a value strictly equal (`===`) to `true` — which
includes the default used when the key is absent — yields `Enabled`. -/
def readUseSeparateSyntaxServer (c : WorkspaceConfiguration) :
    SeparateSyntaxServerConfiguration :=
  match c.get "typescript.tsserver.useSeparateSyntaxServer" (.bool true) with
  | .bool true => .Enabled
  | _ => .Disabled

/-- `readEnableProjectDiagnostics` (configuration.ts line 192). -/
def readEnableProjectDiagnostics (c : WorkspaceConfiguration) : Bool :=
  getBoolOr c "typescript.tsserver.experimental.enableProjectDiagnostics" false

/-- `readWatchOptions` (configuration.ts line 196): the raw stored value with
no default. -/
def readWatchOptions (c : WorkspaceConfiguration) : Option SettingValue :=
  c.getOpt "typescript.tsserver.watchOptions"

/-- `readIncludePackageJsonAutoImports` (configuration.ts line 200). -/
def readIncludePackageJsonAutoImports (c : WorkspaceConfiguration) :
    Option String :=
  getStringOrNull c "typescript.preferences.includePackageJsonAutoImports"

/-- `Number.MAX_SAFE_INTEGER` = 2^53 - 1. -/
def maxSafeInteger : ℤ := 2 ^ 53 - 1

/-- `Number.isSafeInteger`: true exactly on numbers that are integers of
magnitude at most 2^53 - 1, false on every non-number value. -/
def isSafeInteger : SettingValue → Bool
  | .num q => decide (q.den = 1 ∧ |q.num| ≤ maxSafeInteger)
  | _ => false

/-- `readMaxTsServerMemory` (configuration.ts line 204): default 3072; a
stored value that is not a safe integer (wrong type, fractional, or out of
the safe range) is discarded for the default, and a safe integer is floored
at 128 by `Math.max`. -/
def readMaxTsServerMemory (c : WorkspaceConfiguration) : ℚ :=
  let defaultMaxMemory : ℚ := 3072
  let minimumMaxMemory : ℚ := 128
  match c.get "typescript.tsserver.maxTsServerMemory" (.num defaultMaxMemory) with
  | .num q =>
    if isSafeInteger (.num q) then max q minimumMaxMemory else defaultMaxMemory
  | _ => defaultMaxMemory

/-- `readEnablePromptUseWorkspaceTsdk` (configuration.ts line 214). -/
def readEnablePromptUseWorkspaceTsdk (c : WorkspaceConfiguration) : Bool :=
  getBoolOr c "typescript.enablePromptUseWorkspaceTsdk" false

/-! ### Equality helpers (`arrays.equals`, `objects.equals`) -/

/-- Modelled from the spec: `arrays.equals` from `utils/arrays` (the module is
not part of the provided sources) — ordered element-wise sequence equality of
the plugin-path lists. -/
def arraysEquals : List String → List String → Bool
  | [], [] => true
  | x :: xs, y :: ys => decide (x = y) && arraysEquals xs ys
  | _, _ => false

/-- First value stored under a key in an object's field list (JavaScript
objects have at most one entry per key). -/
def lookupField (k : String) : List (String × SettingValue) → Option SettingValue
  | [] => none
  | (k', v) :: rest => if k' = k then some v else lookupField k rest

/-- Every key of `fb` is also a key of `fa`. -/
def keysIncluded (fb fa : List (String × SettingValue)) : Bool :=
  fb.all (fun kv => (lookupField kv.1 fa).isSome)

mutual

/-- Modelled from the spec: `objects.equals` from `utils/objects` (the module
is not part of the provided sources) — deep structural equality of the opaque
structured `watchOptions` value: scalars by value, arrays element-wise in
order, objects by an order-independent comparison of their keys together with
deep equality of the value at each key. -/
def deepEq : SettingValue → SettingValue → Bool
  | .str x, .str y => decide (x = y)
  | .num x, .num y => decide (x = y)
  | .bool x, .bool y => x == y
  | .null, .null => true
  | .arr xs, .arr ys => deepEqList xs ys
  | .obj fa, .obj fb => deepEqFields fa fb && keysIncluded fb fa
  | _, _ => false

/-- Element-wise deep equality of two arrays. -/
def deepEqList : List SettingValue → List SettingValue → Bool
  | [], [] => true
  | x :: xs, y :: ys => deepEq x y && deepEqList xs ys
  | _, _ => false

/-- Each entry of the first field list has a deeply equal value under the same
key in the second, looked up irrespective of position. -/
def deepEqFields : List (String × SettingValue) →
    List (String × SettingValue) → Bool
  | [], _ => true
  | (k, v) :: rest, fb =>
    (match lookupField k fb with
     | some w => deepEq v w
     | none => false) && deepEqFields rest fb

end

/-- Modelled from the spec: the `watchOptions` comparison treats
absent/`undefined` on both sides as equal and is otherwise the deep
structural equality. -/
def objectsEquals : Option SettingValue → Option SettingValue → Bool
  | none, none => true
  | some a, some b => deepEq a b
  | _, _ => false

/-- No string occurs twice. -/
def keysNodup : List String → Bool
  | [] => true
  | k :: rest => !(rest.contains k) && keysNodup rest

mutual

/-- Well-formedness of a settings value as a JavaScript runtime value: no
object carries two entries with the same key (JavaScript objects cannot). -/
def wfValue : SettingValue → Bool
  | .arr xs => wfList xs
  | .obj fs => keysNodup (fs.map Prod.fst) && wfFields fs
  | _ => true

/-- All array elements well-formed. -/
def wfList : List SettingValue → Bool
  | [] => true
  | x :: xs => wfValue x && wfList xs

/-- All field values well-formed. -/
def wfFields : List (String × SettingValue) → Bool
  | [] => true
  | (_, v) :: rest => wfValue v && wfFields rest

end

/-- Well-formedness of an optional settings value. -/
def wfOpt : Option SettingValue → Bool
  | none => true
  | some v => wfValue v

example :
    deepEq (.obj [("a", .num 1), ("b", .str "x")])
      (.obj [("b", .str "x"), ("a", .num 1)]) = true := by decide

example :
    deepEq (.obj [("a", .num 1)]) (.obj [("a", .num 2)]) = false := by decide

/-! ### The snapshot (`TypeScriptServiceConfiguration`) -/

/-- `TypeScriptServiceConfiguration` (configuration.ts line 54): the immutable
snapshot value with its 17 resolved fields, in source declaration order. -/
structure TypeScriptServiceConfiguration : Type where
  locale : Option String
  globalTsdk : Option String
  localTsdk : Option String
  npmLocation : Option String
  tsServerLogLevel : TsServerLogLevel
  tsServerPluginPaths : List String
  checkJs : Bool
  experimentalDecorators : Bool
  implicitStrictNullChecks : Bool
  implicitStrictFunctionTypes : Bool
  disableAutomaticTypeAcquisition : Bool
  separateSyntaxServer : SeparateSyntaxServerConfiguration
  enableProjectDiagnostics : Bool
  maxTsServerMemory : ℚ
  enablePromptUseWorkspaceTsdk : Bool
  watchOptions : Option SettingValue
  includePackageJsonAutoImports : Option String

/-- The private constructor reached through `loadFromWorkspace`
(configuration.ts lines 75-99): every field resolved once from the provider.
`homedir` is the ambient `os.homedir()`. -/
def TypeScriptServiceConfiguration.loadFromWorkspace (homedir : String)
    (c : WorkspaceConfiguration) : TypeScriptServiceConfiguration where
  locale := extractLocale c
  globalTsdk := extractGlobalTsdk homedir c
  localTsdk := extractLocalTsdk homedir c
  npmLocation := readNpmLocation c
  tsServerLogLevel := readTsServerLogLevel c
  tsServerPluginPaths := readTsServerPluginPaths c
  checkJs := readCheckJs c
  experimentalDecorators := readExperimentalDecorators c
  implicitStrictNullChecks := readImplicitStrictNullChecks c
  implicitStrictFunctionTypes := readImplicitStrictFunctionTypes c
  disableAutomaticTypeAcquisition := readDisableAutomaticTypeAcquisition c
  separateSyntaxServer := readUseSeparateSyntaxServer c
  enableProjectDiagnostics := readEnableProjectDiagnostics c
  maxTsServerMemory := readMaxTsServerMemory c
  enablePromptUseWorkspaceTsdk := readEnablePromptUseWorkspaceTsdk c
  watchOptions := readWatchOptions c
  includePackageJsonAutoImports := readIncludePackageJsonAutoImports c

/-- `isEqualTo` (configuration.ts lines 101-119): the conjunction of the 17
per-field comparisons, in the order the source writes them — `===` on
primitive fields, `arrays.equals` on the plugin paths, `objects.equals` on
the watch options. -/
def TypeScriptServiceConfiguration.isEqualTo
    (a other : TypeScriptServiceConfiguration) : Bool :=
  decide (a.locale = other.locale)
  && decide (a.globalTsdk = other.globalTsdk)
  && decide (a.localTsdk = other.localTsdk)
  && decide (a.npmLocation = other.npmLocation)
  && decide (a.tsServerLogLevel = other.tsServerLogLevel)
  && decide (a.checkJs = other.checkJs)
  && decide (a.experimentalDecorators = other.experimentalDecorators)
  && decide (a.implicitStrictNullChecks = other.implicitStrictNullChecks)
  && decide (a.implicitStrictFunctionTypes = other.implicitStrictFunctionTypes)
  && decide (a.disableAutomaticTypeAcquisition =
       other.disableAutomaticTypeAcquisition)
  && arraysEquals a.tsServerPluginPaths other.tsServerPluginPaths
  && decide (a.separateSyntaxServer = other.separateSyntaxServer)
  && decide (a.enableProjectDiagnostics = other.enableProjectDiagnostics)
  && decide (a.maxTsServerMemory = other.maxTsServerMemory)
  && objectsEquals a.watchOptions other.watchOptions
  && decide (a.enablePromptUseWorkspaceTsdk = other.enablePromptUseWorkspaceTsdk)
  && decide (a.includePackageJsonAutoImports =
       other.includePackageJsonAutoImports)

/-! ### Helper lemmas -/

theorem arraysEquals_eq_true_iff :
    ∀ xs ys : List String, arraysEquals xs ys = true ↔ xs = ys := by
  intro xs
  induction xs with
  | nil => intro ys; cases ys <;> simp [arraysEquals]
  | cons x xs ih =>
    intro ys
    cases ys with
    | nil => simp [arraysEquals]
    | cons y ys => simp [arraysEquals, ih]

theorem lookupField_mem {k : String} {fs : List (String × SettingValue)}
    {v : SettingValue} (h : lookupField k fs = some v) : (k, v) ∈ fs := by
  induction fs with
  | nil => simp [lookupField] at h
  | cons kv rest ih =>
    obtain ⟨k', v'⟩ := kv
    by_cases hk : k' = k
    · subst hk
      simp [lookupField] at h
      subst h
      exact List.mem_cons_self _ _
    · rw [lookupField, if_neg hk] at h
      exact List.mem_cons_of_mem _ (ih h)

theorem lookupField_isSome_of_mem {k : String}
    {fs : List (String × SettingValue)} {v : SettingValue}
    (h : (k, v) ∈ fs) : (lookupField k fs).isSome = true := by
  induction fs with
  | nil => simp at h
  | cons kv rest ih =>
    obtain ⟨k', v'⟩ := kv
    by_cases hk : k' = k
    · subst hk; simp [lookupField]
    · rw [lookupField, if_neg hk]
      rcases List.mem_cons.mp h with h1 | h1
      · exact absurd (congrArg Prod.fst h1).symm hk
      · exact ih h1

theorem lookupField_of_mem_nodup {k : String}
    {fs : List (String × SettingValue)} {v : SettingValue}
    (hnd : keysNodup (fs.map Prod.fst) = true) (h : (k, v) ∈ fs) :
    lookupField k fs = some v := by
  induction fs with
  | nil => simp at h
  | cons kv rest ih =>
    obtain ⟨k', v'⟩ := kv
    simp only [List.map_cons, keysNodup, Bool.and_eq_true, Bool.not_eq_true'] at hnd
    rcases List.mem_cons.mp h with h1 | h1
    · rw [Prod.mk.injEq] at h1
      obtain ⟨hk, hv⟩ := h1
      subst hk
      subst hv
      simp [lookupField]
    · have hk : k' ≠ k := by
        intro hkk
        subst hkk
        have hmem : k' ∈ rest.map Prod.fst := List.mem_map.mpr ⟨(k', v), h1, rfl⟩
        have hc := List.elem_eq_true_of_mem hmem
        have hf := hnd.1
        rw [List.contains] at hf
        rw [hf] at hc
        exact Bool.false_ne_true hc
      rw [lookupField, if_neg hk]
      exact ih hnd.2 h1

theorem deepEqList_eq_true_iff :
    ∀ xs ys : List SettingValue,
      deepEqList xs ys = true ↔
        List.Forall₂ (fun x y => deepEq x y = true) xs ys := by
  intro xs
  induction xs with
  | nil =>
    intro ys
    cases ys <;> simp [deepEqList]
  | cons x xs ih =>
    intro ys
    cases ys with
    | nil => simp [deepEqList]
    | cons y ys =>
      simp [deepEqList, List.forall₂_cons, ih]

theorem deepEqFields_eq_true_iff :
    ∀ fa fb : List (String × SettingValue),
      deepEqFields fa fb = true ↔
        ∀ kv ∈ fa, ∃ w, lookupField kv.1 fb = some w ∧ deepEq kv.2 w = true := by
  intro fa
  induction fa with
  | nil => intro fb; simp [deepEqFields]
  | cons kv rest ih =>
    intro fb
    obtain ⟨k, v⟩ := kv
    rw [deepEqFields, Bool.and_eq_true, ih]
    constructor
    · rintro ⟨h1, h2⟩ kv' hkv'
      rcases List.mem_cons.mp hkv' with h3 | h3
      · subst h3
        cases hl : lookupField k fb with
        | none => rw [hl] at h1; exact absurd h1 (by simp)
        | some w => rw [hl] at h1; exact ⟨w, rfl, h1⟩
      · exact h2 kv' h3
    · intro h
      refine ⟨?_, fun kv' hkv' => h kv' (List.mem_cons_of_mem _ hkv')⟩
      obtain ⟨w, hw, hd⟩ := h (k, v) (List.mem_cons_self _ _)
      rw [hw]
      exact hd

theorem keysIncluded_eq_true_iff (fb fa : List (String × SettingValue)) :
    keysIncluded fb fa = true ↔
      ∀ kv ∈ fb, (lookupField kv.1 fa).isSome = true := by
  simp [keysIncluded, List.all_eq_true]

theorem wfList_eq_true_iff :
    ∀ xs : List SettingValue, wfList xs = true ↔ ∀ x ∈ xs, wfValue x = true := by
  intro xs
  induction xs with
  | nil => simp [wfList]
  | cons x xs ih => simp [wfList, ih]

theorem wfFields_eq_true_iff :
    ∀ fs : List (String × SettingValue),
      wfFields fs = true ↔ ∀ kv ∈ fs, wfValue kv.2 = true := by
  intro fs
  induction fs with
  | nil => simp [wfFields]
  | cons kv rest ih =>
    obtain ⟨k, v⟩ := kv
    simp [wfFields, ih]

theorem sizeOf_lt_arr {x : SettingValue} {xs : List SettingValue}
    (hx : x ∈ xs) : sizeOf x < sizeOf (SettingValue.arr xs) := by
  have h1 := List.sizeOf_lt_of_mem hx
  simp only [SettingValue.arr.sizeOf_spec]
  omega

theorem sizeOf_lt_obj {k : String} {v : SettingValue}
    {fs : List (String × SettingValue)} (hv : (k, v) ∈ fs) :
    sizeOf v < sizeOf (SettingValue.obj fs) := by
  have h1 := List.sizeOf_lt_of_mem hv
  have h2 : sizeOf (k, v) = 1 + sizeOf k + sizeOf v := rfl
  simp only [SettingValue.obj.sizeOf_spec]
  omega

theorem deepEq_refl : ∀ (v : SettingValue), wfValue v = true → deepEq v v = true
  | .str s, _ => by simp [deepEq]
  | .num q, _ => by simp [deepEq]
  | .bool b, _ => by simp [deepEq]
  | .null, _ => rfl
  | .arr xs, h => by
    have hw : ∀ x ∈ xs, wfValue x = true := (wfList_eq_true_iff xs).mp h
    show deepEqList xs xs = true
    rw [deepEqList_eq_true_iff, List.forall₂_same]
    intro x hx
    exact deepEq_refl x (hw x hx)
  | .obj fs, h => by
    have h' : keysNodup (fs.map Prod.fst) = true ∧ wfFields fs = true := by
      simpa [wfValue, Bool.and_eq_true] using h
    have hw : ∀ kv ∈ fs, wfValue kv.2 = true := (wfFields_eq_true_iff fs).mp h'.2
    show (deepEqFields fs fs && keysIncluded fs fs) = true
    rw [Bool.and_eq_true]
    constructor
    · rw [deepEqFields_eq_true_iff]
      intro kv hkv
      exact ⟨kv.2, lookupField_of_mem_nodup h'.1 hkv,
        deepEq_refl kv.2 (hw kv hkv)⟩
    · rw [keysIncluded_eq_true_iff]
      intro kv hkv
      exact lookupField_isSome_of_mem (v := kv.2) hkv
termination_by v => sizeOf v
decreasing_by
  · exact sizeOf_lt_arr hx
  · exact sizeOf_lt_obj hkv

theorem deepEq_symm_mp_aux :
    ∀ (n : Nat) (a b : SettingValue), sizeOf a < n → wfValue b = true →
      deepEq a b = true → deepEq b a = true := by
  intro n
  induction n with
  | zero => intro a b hlt; exact absurd hlt (Nat.not_lt_zero _)
  | succ n ih =>
  intro a b hlt hb h
  cases a <;> cases b <;> try exact (Bool.false_ne_true h).elim
  case str.str x y =>
    have hxy : x = y := by simpa [deepEq] using h
    simp [deepEq, hxy]
  case num.num x y =>
    have hxy : x = y := by simpa [deepEq] using h
    simp [deepEq, hxy]
  case bool.bool x y =>
    have hxy : x = y := by simpa [deepEq] using h
    simp [deepEq, hxy]
  case null.null => rfl
  case arr.arr xs ys =>
    have hw : ∀ y ∈ ys, wfValue y = true := (wfList_eq_true_iff ys).mp hb
    replace h : deepEqList xs ys = true := h
    rw [deepEqList_eq_true_iff, List.forall₂_iff_zip] at h
    obtain ⟨hlen, hzip⟩ := h
    show deepEqList ys xs = true
    rw [deepEqList_eq_true_iff, List.forall₂_iff_zip]
    refine ⟨hlen.symm, ?_⟩
    intro y x hyx
    have hxy : (x, y) ∈ List.zip xs ys := by
      have := List.zip_swap xs ys
      rw [← this] at hyx
      obtain ⟨⟨x', y'⟩, hmem, hswap⟩ := List.mem_map.mp hyx
      obtain ⟨h1, h2⟩ := Prod.mk.injEq .. ▸ hswap
      simp only [Prod.swap_prod_mk, Prod.mk.injEq] at hswap
      obtain ⟨rfl, rfl⟩ := hswap
      exact hmem
    have hmemx : x ∈ xs := (List.of_mem_zip hxy).1
    have hmemy : y ∈ ys := (List.of_mem_zip hxy).2
    have hsz : sizeOf x < n := by
      have := sizeOf_lt_arr hmemx
      omega
    exact ih x y hsz (hw y hmemy) (hzip hxy)
  case obj.obj fa fb =>
    have hb' : keysNodup (fb.map Prod.fst) = true ∧ wfFields fb = true := by
      simpa [wfValue, Bool.and_eq_true] using hb
    have hwb : ∀ kv ∈ fb, wfValue kv.2 = true := (wfFields_eq_true_iff fb).mp hb'.2
    replace h : (deepEqFields fa fb && keysIncluded fb fa) = true := h
    rw [Bool.and_eq_true] at h
    obtain ⟨h1, h2⟩ := h
    rw [deepEqFields_eq_true_iff] at h1
    rw [keysIncluded_eq_true_iff] at h2
    show (deepEqFields fb fa && keysIncluded fa fb) = true
    rw [Bool.and_eq_true]
    constructor
    · rw [deepEqFields_eq_true_iff]
      intro kv hkv
      obtain ⟨k, w⟩ := kv
      have hsome := h2 (k, w) hkv
      cases hl : lookupField k fa with
      | none => rw [hl] at hsome; exact absurd hsome (by simp)
      | some v' =>
        have hmem : (k, v') ∈ fa := lookupField_mem hl
        obtain ⟨w', hw', hdw⟩ := h1 (k, v') hmem
        have hwlook : lookupField k fb = some w := lookupField_of_mem_nodup hb'.1 hkv
        rw [hwlook] at hw'
        obtain rfl : w = w' := by injection hw'
        have hsz : sizeOf v' < n := by
          have := sizeOf_lt_obj hmem
          omega
        exact ⟨v', rfl, ih v' w hsz (hwb (k, w) hkv) hdw⟩
    · rw [keysIncluded_eq_true_iff]
      intro kv hkv
      obtain ⟨w, hw, _⟩ := h1 kv hkv
      rw [hw]
      rfl

theorem deepEq_symm_mp (a b : SettingValue) (hb : wfValue b = true)
    (h : deepEq a b = true) : deepEq b a = true :=
  deepEq_symm_mp_aux (sizeOf a + 1) a b (Nat.lt_succ_self _) hb h

/-- `deepEq` is symmetric on well-formed (JavaScript-representable) values. -/
theorem deepEq_symm (a b : SettingValue) (ha : wfValue a = true)
    (hb : wfValue b = true) : deepEq a b = deepEq b a := by
  cases h1 : deepEq a b with
  | true => exact (deepEq_symm_mp a b hb h1).symm
  | false =>
    cases h2 : deepEq b a with
    | true =>
      have ht := deepEq_symm_mp b a ha h2
      rw [ht] at h1
      exact absurd h1 (by simp)
    | false => rfl

theorem objectsEquals_refl (o : Option SettingValue) (h : wfOpt o = true) :
    objectsEquals o o = true := by
  cases o with
  | none => rfl
  | some v => exact deepEq_refl v h

theorem objectsEquals_symm (o p : Option SettingValue) (ho : wfOpt o = true)
    (hp : wfOpt p = true) : objectsEquals o p = objectsEquals p o := by
  cases o <;> cases p <;> try rfl
  exact deepEq_symm _ _ ho hp

theorem arraysEquals_eq_decide (xs ys : List String) :
    arraysEquals xs ys = decide (xs = ys) := by
  by_cases h : xs = ys
  · subst h
    simp [(arraysEquals_eq_true_iff xs xs).mpr rfl]
  · cases hb : arraysEquals xs ys with
    | true => exact absurd ((arraysEquals_eq_true_iff xs ys).mp hb) h
    | false => simp [h]

theorem isEqualTo_eq_true_iff (a b : TypeScriptServiceConfiguration) :
    a.isEqualTo b = true ↔
      (a.locale = b.locale ∧ a.globalTsdk = b.globalTsdk ∧
       a.localTsdk = b.localTsdk ∧ a.npmLocation = b.npmLocation ∧
       a.tsServerLogLevel = b.tsServerLogLevel ∧ a.checkJs = b.checkJs ∧
       a.experimentalDecorators = b.experimentalDecorators ∧
       a.implicitStrictNullChecks = b.implicitStrictNullChecks ∧
       a.implicitStrictFunctionTypes = b.implicitStrictFunctionTypes ∧
       a.disableAutomaticTypeAcquisition = b.disableAutomaticTypeAcquisition ∧
       a.tsServerPluginPaths = b.tsServerPluginPaths ∧
       a.separateSyntaxServer = b.separateSyntaxServer ∧
       a.enableProjectDiagnostics = b.enableProjectDiagnostics ∧
       a.maxTsServerMemory = b.maxTsServerMemory ∧
       objectsEquals a.watchOptions b.watchOptions = true ∧
       a.enablePromptUseWorkspaceTsdk = b.enablePromptUseWorkspaceTsdk ∧
       a.includePackageJsonAutoImports = b.includePackageJsonAutoImports) := by
  rw [TypeScriptServiceConfiguration.isEqualTo]
  simp only [Bool.and_eq_true, decide_eq_true_eq, arraysEquals_eq_true_iff]
  tauto

/-! ### Path lemmas -/

theorem strStartsWith_slash_iff (s : String) :
    strStartsWith s "/" = true ↔ ∃ t : List Char, s.data = '/' :: t := by
  constructor
  · intro h
    replace h : (['/'].isPrefixOf s.data) = true := h
    cases hd : s.data with
    | nil => rw [hd] at h; exact absurd h (by decide)
    | cons c t =>
      rw [hd] at h
      replace h : (('/' == c) && ([].isPrefixOf t)) = true := h
      rw [Bool.and_eq_true] at h
      have hc : '/' = c := by
        have h1 := h.1
        simp at h1
        exact h1
      exact ⟨t, by rw [← hc]⟩
  · rintro ⟨t, ht⟩
    show (['/'].isPrefixOf s.data) = true
    rw [ht]
    show (('/' == '/') && ([].isPrefixOf t)) = true
    rw [Bool.and_eq_true]
    exact ⟨by simp, by cases t <;> rfl⟩

theorem strStartsWith_slash_append {a : String} (x : String)
    (h : strStartsWith a "/" = true) : strStartsWith (a ++ x) "/" = true := by
  rw [strStartsWith_slash_iff] at h ⊢
  obtain ⟨t, ht⟩ := h
  exact ⟨t ++ x.data, by rw [String.data_append, ht]; rfl⟩

theorem not_home_shorthand_of_slash {s : String}
    (h : strStartsWith s "/" = true) :
    strStartsWith s ("~" ++ pathSep) = false := by
  rw [strStartsWith_slash_iff] at h
  obtain ⟨t, ht⟩ := h
  show (['~', '/'].isPrefixOf s.data) = false
  rw [ht]
  rfl

theorem strStartsWith_slash_ne_empty {s : String}
    (h : strStartsWith s "/" = true) : s ≠ "" := by
  rw [strStartsWith_slash_iff] at h
  obtain ⟨t, ht⟩ := h
  intro he
  rw [he] at ht
  exact List.noConfusion ht

theorem startsWith_slash_root : strStartsWith "/" "/" = true := rfl

theorem normalizePath_absolute (p : String)
    (h : strStartsWith p "/" = true) :
    strStartsWith (normalizePath p) "/" = true := by
  rw [normalizePath, if_neg (strStartsWith_slash_ne_empty h), h]
  simp only [eq_self_iff_true, if_true]
  by_cases h1 : joinParts (normParts true (splitSlash p) []) = ""
  · rw [if_pos h1]
    exact startsWith_slash_root
  · rw [if_neg h1]
    by_cases h2 : strEndsWith p "/" = true
    · rw [if_pos h2]
      exact strStartsWith_slash_append _
        (strStartsWith_slash_append _ startsWith_slash_root)
    · rw [if_neg h2]
      exact strStartsWith_slash_append _ startsWith_slash_root

theorem joinParts_absolute (a : String) (rest : List String)
    (h : strStartsWith a "/" = true) :
    strStartsWith (joinParts (a :: rest)) "/" = true := by
  cases rest with
  | nil => exact h
  | cons b rest =>
    show strStartsWith (a ++ "/" ++ joinParts (b :: rest)) "/" = true
    exact strStartsWith_slash_append _ (strStartsWith_slash_append _ h)

theorem pathJoin_absolute (a b : String) (ha : strStartsWith a "/" = true) :
    strStartsWith (pathJoin a b) "/" = true := by
  have hne : a ≠ "" := strStartsWith_slash_ne_empty ha
  have hfa : (a == "") = false := beq_eq_false_iff_ne.mpr hne
  have hfilter : [a, b].filter (fun s => !(s == "")) =
      if b = "" then [a] else [a, b] := by
    by_cases hbe : b = ""
    · subst hbe
      simp [List.filter_cons, hfa]
    · have hfb : (b == "") = false := beq_eq_false_iff_ne.mpr hbe
      simp [List.filter_cons, hfa, hfb, hbe]
  rw [pathJoin]
  simp only [hfilter]
  by_cases hbe : b = ""
  · rw [if_pos hbe]
    simp only [List.isEmpty_cons, Bool.false_eq_true, if_false]
    exact normalizePath_absolute _ (joinParts_absolute a [] ha)
  · rw [if_neg hbe]
    simp only [List.isEmpty_cons, Bool.false_eq_true, if_false]
    exact normalizePath_absolute _ (joinParts_absolute a [b] ha)

theorem fixPathPrefixes_of_shorthand (homedir s : String)
    (h : strStartsWith s ("~" ++ pathSep) = true) :
    fixPathPrefixes homedir s =
      pathJoin homedir (strDrop s ("~" ++ pathSep).length) := by
  rw [fixPathPrefixes, List.find?_cons_of_pos _ h]

theorem fixPathPrefixes_of_no_shorthand (homedir s : String)
    (h : strStartsWith s ("~" ++ pathSep) = false) :
    fixPathPrefixes homedir s = s := by
  rw [fixPathPrefixes, List.find?_cons_of_neg, List.find?_nil]
  rw [h]
  exact Bool.false_ne_true

theorem pathJoin_empty_right (a : String) (ha : a ≠ "") :
    pathJoin a "" = normalizePath a := by
  have hfa : (a == "") = false := beq_eq_false_iff_ne.mpr ha
  rw [pathJoin]
  simp only [List.filter_cons, hfa, Bool.not_false, if_true, beq_self_eq_true,
    Bool.not_true, Bool.false_eq_true, if_false, List.filter_nil,
    List.isEmpty_cons]
  rfl

/-- A configuration with a single key set, at the workspace scope only. -/
def configWithWorkspace (key : String) (v : SettingValue) :
    WorkspaceConfiguration :=
  ⟨fun _ => none, fun _ => none, fun k => if k = key then some v else none⟩

/-- A configuration with a single key set, at the global (user) scope only. -/
def configWithGlobal (key : String) (v : SettingValue) :
    WorkspaceConfiguration :=
  ⟨fun _ => none, fun k => if k = key then some v else none, fun _ => none⟩

theorem isSafeInteger_num_iff (q : ℚ) :
    isSafeInteger (.num q) = true ↔ (q.den = 1 ∧ |q.num| ≤ maxSafeInteger) := by
  simp [isSafeInteger]

/-! ### Claims -/

/-- C8: `TsServerLogLevel.fromString` is total on the degenerate inputs
`null`/`undefined` and the empty string: the falsy guard makes the switch
fall through to the default branch, so all of them resolve to `Off` rather
than raising an error. -/
theorem spec_claim_C8 :
    TsServerLogLevel.fromString none = TsServerLogLevel.Off ∧
    TsServerLogLevel.fromString (some "") = TsServerLogLevel.Off :=
  ⟨rfl, rfl⟩

/-- C2 counterexample: the claim says an absent
`typescript.tsserver.useSeparateSyntaxServer` setting yields `Disabled`, but
the code reads the key with default `true`, so an absent setting yields
`Enabled`. -/
theorem spec_claim_C2_counterexample :
    ¬ (readUseSeparateSyntaxServer emptyConfig =
        SeparateSyntaxServerConfiguration.Disabled) := by
  decide

/-- C2 (amended): the field is resolved from a boolean read of
`typescript.tsserver.useSeparateSyntaxServer` with default `true`: a stored
value of exactly `true` and an absent setting (which takes the default)
yield `Enabled`; any other stored value yields `Disabled`. -/
theorem spec_claim_C2 (c : WorkspaceConfiguration) :
    readUseSeparateSyntaxServer c = SeparateSyntaxServerConfiguration.Enabled ↔
      (c.effective "typescript.tsserver.useSeparateSyntaxServer" = none ∨
       c.effective "typescript.tsserver.useSeparateSyntaxServer" =
         some (SettingValue.bool true)) := by
  unfold readUseSeparateSyntaxServer WorkspaceConfiguration.get
  cases h : c.effective "typescript.tsserver.useSeparateSyntaxServer" with
  | none => simp
  | some v =>
    cases v with
    | bool b => cases b <;> simp
    | str s => simp
    | num q => simp
    | null => simp
    | arr xs => simp
    | obj fs => simp

theorem spec_claim_C2_witness :
    readUseSeparateSyntaxServer emptyConfig =
      SeparateSyntaxServerConfiguration.Enabled :=
  (spec_claim_C2 emptyConfig).mpr (Or.inl rfl)

/-- C3: `typescript.tsserver.maxTsServerMemory` resolves to the default 3072
whenever the stored value is not a safe integer (wrong type, fractional, or
out of the safe range) or is absent, and to `max(raw, 128)` when it is a safe
integer; the result is always an integer at least 128, with no upper clamp
(4096 stays 4096), 50 clamps to 128, and 3000.5 or a string default to
3072. -/
theorem spec_claim_C3 :
    (∀ (c : WorkspaceConfiguration) (q : ℚ),
       c.effective "typescript.tsserver.maxTsServerMemory" =
         some (SettingValue.num q) →
       q.den = 1 → |q.num| ≤ maxSafeInteger →
       readMaxTsServerMemory c = max q 128) ∧
    (∀ (c : WorkspaceConfiguration) (v : SettingValue),
       c.effective "typescript.tsserver.maxTsServerMemory" = some v →
       isSafeInteger v = false →
       readMaxTsServerMemory c = 3072) ∧
    (∀ c : WorkspaceConfiguration,
       c.effective "typescript.tsserver.maxTsServerMemory" = none →
       readMaxTsServerMemory c = 3072) ∧
    (∀ c : WorkspaceConfiguration,
       (readMaxTsServerMemory c).den = 1 ∧ 128 ≤ readMaxTsServerMemory c) ∧
    readMaxTsServerMemory (configWithWorkspace
      "typescript.tsserver.maxTsServerMemory" (.num 50)) = 128 ∧
    readMaxTsServerMemory (configWithWorkspace
      "typescript.tsserver.maxTsServerMemory" (.num 4096)) = 4096 ∧
    readMaxTsServerMemory (configWithWorkspace
      "typescript.tsserver.maxTsServerMemory" (.num (mkRat 6001 2))) = 3072 ∧
    readMaxTsServerMemory (configWithWorkspace
      "typescript.tsserver.maxTsServerMemory" (.str "3000")) = 3072 := by
  refine ⟨?_, ?_, ?_, ?_, by decide, by decide, by decide, by decide⟩
  · intro c q he h1 h2
    unfold readMaxTsServerMemory WorkspaceConfiguration.get
    rw [he]
    simp only
    rw [if_pos ((isSafeInteger_num_iff q).mpr ⟨h1, h2⟩)]
  · intro c v he hs
    unfold readMaxTsServerMemory WorkspaceConfiguration.get
    rw [he]
    cases v with
    | num q =>
      simp only
      have hneg : ¬ (isSafeInteger (SettingValue.num q) = true) := by
        rw [hs]
        exact Bool.false_ne_true
      rw [if_neg hneg]
    | str s => rfl
    | bool b => rfl
    | null => rfl
    | arr xs => rfl
    | obj fs => rfl
  · intro c he
    unfold readMaxTsServerMemory WorkspaceConfiguration.get
    rw [he]
    decide
  · intro c
    unfold readMaxTsServerMemory WorkspaceConfiguration.get
    cases he : c.effective "typescript.tsserver.maxTsServerMemory" with
    | none =>
      exact ⟨by show (3072 : ℚ).den = 1; decide,
        by show (128 : ℚ) ≤ (3072 : ℚ); decide⟩
    | some v =>
      cases v with
      | num q =>
        simp only
        by_cases hs : isSafeInteger (.num q) = true
        · rw [if_pos hs]
          have hden : q.den = 1 := ((isSafeInteger_num_iff q).mp hs).1
          constructor
          · rcases max_choice q 128 with hmax | hmax <;> rw [hmax]
            · exact hden
            · decide
          · exact le_max_right _ _
        · rw [if_neg hs]
          exact ⟨by decide, by decide⟩
      | str s =>
        exact ⟨by show (3072 : ℚ).den = 1; decide,
          by show (128 : ℚ) ≤ (3072 : ℚ); decide⟩
      | bool b =>
        exact ⟨by show (3072 : ℚ).den = 1; decide,
          by show (128 : ℚ) ≤ (3072 : ℚ); decide⟩
      | null =>
        exact ⟨by show (3072 : ℚ).den = 1; decide,
          by show (128 : ℚ) ≤ (3072 : ℚ); decide⟩
      | arr xs =>
        exact ⟨by show (3072 : ℚ).den = 1; decide,
          by show (128 : ℚ) ≤ (3072 : ℚ); decide⟩
      | obj fs =>
        exact ⟨by show (3072 : ℚ).den = 1; decide,
          by show (128 : ℚ) ≤ (3072 : ℚ); decide⟩

theorem spec_claim_C3_witness :
    readMaxTsServerMemory (configWithWorkspace
      "typescript.tsserver.maxTsServerMemory" (.num 4096)) = max (4096 : ℚ) 128 :=
  spec_claim_C3.1 _ 4096 rfl (by decide) (by decide)

/-- C6: the log-level resolution round-trips — for each of the four level
names written in any letter case, `fromString` followed by `toString` yields
the canonical lowercase name; an unrecognized string resolves to `Off`, and
an absent setting (read with default `"off"`) resolves to `Off`. -/
theorem spec_claim_C6 :
    (∀ s : String,
       (strToLower s = "off" ∨ strToLower s = "normal" ∨
        strToLower s = "terse" ∨ strToLower s = "verbose") →
       TsServerLogLevel.toString (TsServerLogLevel.fromString (some s)) =
         strToLower s) ∧
    (∀ s : String,
       strToLower s ≠ "off" → strToLower s ≠ "normal" →
       strToLower s ≠ "terse" → strToLower s ≠ "verbose" →
       TsServerLogLevel.fromString (some s) = TsServerLogLevel.Off) ∧
    readTsServerLogLevel emptyConfig = TsServerLogLevel.Off := by
  refine ⟨?_, ?_, rfl⟩
  · intro s h
    by_cases hse : s = ""
    · subst hse
      rcases h with h | h | h | h <;> exact absurd h (by decide)
    · simp only [TsServerLogLevel.fromString, if_neg hse]
      rcases h with h | h | h | h <;> rw [h] <;> rfl
  · intro s h1 h2 h3 h4
    by_cases hse : s = ""
    · subst hse; rfl
    · simp only [TsServerLogLevel.fromString, if_neg hse]

theorem spec_claim_C6_witness :
    TsServerLogLevel.toString (TsServerLogLevel.fromString (some "TERSE")) =
      strToLower "TERSE" :=
  spec_claim_C6.1 "TERSE" (Or.inr (Or.inr (Or.inl rfl)))

/-- C4: `globalTsdk` is resolved solely from the global-scope override of
`typescript.tsdk` and `localTsdk` solely from the workspace-scope override,
never from the merged effective value: each extractor depends only on its own
scope; with only a workspace override set, `globalTsdk` is absent while
`localTsdk` holds the resolved workspace value; with neither scope set, both
are absent. -/
theorem spec_claim_C4 :
    (∀ (homedir : String) (c₁ c₂ : WorkspaceConfiguration),
       c₁.globalValue "typescript.tsdk" = c₂.globalValue "typescript.tsdk" →
       extractGlobalTsdk homedir c₁ = extractGlobalTsdk homedir c₂) ∧
    (∀ (homedir : String) (c₁ c₂ : WorkspaceConfiguration),
       c₁.workspaceValue "typescript.tsdk" =
         c₂.workspaceValue "typescript.tsdk" →
       extractLocalTsdk homedir c₁ = extractLocalTsdk homedir c₂) ∧
    (∀ (homedir s : String) (c : WorkspaceConfiguration),
       c.globalValue "typescript.tsdk" = none →
       c.workspaceValue "typescript.tsdk" = some (SettingValue.str s) →
       extractGlobalTsdk homedir c = none ∧
       extractLocalTsdk homedir c = some (fixPathPrefixes homedir s)) ∧
    (∀ (homedir : String) (c : WorkspaceConfiguration),
       c.globalValue "typescript.tsdk" = none →
       c.workspaceValue "typescript.tsdk" = none →
       extractGlobalTsdk homedir c = none ∧
       extractLocalTsdk homedir c = none) := by
  refine ⟨?_, ?_, ?_, ?_⟩
  · intro homedir c₁ c₂ h
    simp only [extractGlobalTsdk, WorkspaceConfiguration.inspect]
    rw [h]
  · intro homedir c₁ c₂ h
    simp only [extractLocalTsdk, WorkspaceConfiguration.inspect]
    rw [h]
  · intro homedir s c hg hw
    constructor
    · simp only [extractGlobalTsdk, WorkspaceConfiguration.inspect]
      rw [hg]
    · simp only [extractLocalTsdk, WorkspaceConfiguration.inspect]
      rw [hw]
  · intro homedir c hg hw
    constructor
    · simp only [extractGlobalTsdk, WorkspaceConfiguration.inspect]
      rw [hg]
    · simp only [extractLocalTsdk, WorkspaceConfiguration.inspect]
      rw [hw]

theorem spec_claim_C4_witness :
    extractGlobalTsdk "/home/u"
        (configWithWorkspace "typescript.tsdk" (.str "~/sdks/ts")) = none ∧
    extractLocalTsdk "/home/u"
        (configWithWorkspace "typescript.tsdk" (.str "~/sdks/ts")) =
      some (fixPathPrefixes "/home/u" "~/sdks/ts") :=
  spec_claim_C4.2.2.1 "/home/u" "~/sdks/ts" _ rfl rfl

/-- C9: a present but non-string scope override of `typescript.tsdk` (number,
boolean, object, ...) makes the corresponding field resolve to absent, and no
home-prefix normalization is attempted on it. -/
theorem spec_claim_C9 :
    (∀ (homedir : String) (c : WorkspaceConfiguration) (v : SettingValue),
       c.globalValue "typescript.tsdk" = some v →
       (∀ s, v ≠ SettingValue.str s) →
       extractGlobalTsdk homedir c = none) ∧
    (∀ (homedir : String) (c : WorkspaceConfiguration) (v : SettingValue),
       c.workspaceValue "typescript.tsdk" = some v →
       (∀ s, v ≠ SettingValue.str s) →
       extractLocalTsdk homedir c = none) := by
  constructor
  · intro homedir c v h hns
    simp only [extractGlobalTsdk, WorkspaceConfiguration.inspect]
    rw [h]
    cases v with
    | str s => exact absurd rfl (hns s)
    | num q => rfl
    | bool b => rfl
    | null => rfl
    | arr xs => rfl
    | obj fs => rfl
  · intro homedir c v h hns
    simp only [extractLocalTsdk, WorkspaceConfiguration.inspect]
    rw [h]
    cases v with
    | str s => exact absurd rfl (hns s)
    | num q => rfl
    | bool b => rfl
    | null => rfl
    | arr xs => rfl
    | obj fs => rfl

theorem spec_claim_C9_witness :
    extractGlobalTsdk "/home/u"
      (configWithGlobal "typescript.tsdk" (.num 5)) = none :=
  spec_claim_C9.1 "/home/u" _ (.num 5) rfl
    (fun _ h => SettingValue.noConfusion h)

/-- C5: a tsdk value beginning with `'~' + path.sep` resolves to the platform
join of the home directory and the remainder after the prefix; any other
value passes through unchanged; and when the home directory is absolute the
resolved value never retains the home-shorthand prefix.  Concretely,
`"~/sdks/ts"` with home `/home/u` resolves to `/home/u/sdks/ts`. -/
theorem spec_claim_C5 :
    (∀ homedir s : String, strStartsWith s ("~" ++ pathSep) = true →
       fixPathPrefixes homedir s =
         pathJoin homedir (strDrop s ("~" ++ pathSep).length)) ∧
    (∀ homedir s : String, strStartsWith s ("~" ++ pathSep) = false →
       fixPathPrefixes homedir s = s) ∧
    (∀ homedir s : String, strStartsWith homedir "/" = true →
       strStartsWith (fixPathPrefixes homedir s) ("~" ++ pathSep) = false) ∧
    fixPathPrefixes "/home/u" "~/sdks/ts" = "/home/u/sdks/ts" := by
  refine ⟨fixPathPrefixes_of_shorthand, fixPathPrefixes_of_no_shorthand,
    ?_, by decide⟩
  intro homedir s hh
  cases h : strStartsWith s ("~" ++ pathSep) with
  | true =>
    rw [fixPathPrefixes_of_shorthand _ _ h]
    exact not_home_shorthand_of_slash (pathJoin_absolute _ _ hh)
  | false =>
    rw [fixPathPrefixes_of_no_shorthand _ _ h]
    exact h

theorem spec_claim_C5_witness :
    fixPathPrefixes "/home/u" "~/sdks/ts" =
      pathJoin "/home/u" (strDrop "~/sdks/ts" ("~" ++ pathSep).length) ∧
    strStartsWith (fixPathPrefixes "/home/u" "~/sdks/ts")
      ("~" ++ pathSep) = false :=
  ⟨spec_claim_C5.1 "/home/u" "~/sdks/ts" (by decide),
   spec_claim_C5.2.2.1 "/home/u" "~/sdks/ts" (by decide)⟩

/-- C10: a tsdk value that is exactly the home shorthand (`"~/"`, empty
remainder) resolves to the home-directory path itself, because joining the
home directory with the empty remainder yields the home directory (for a
non-empty home path already in normal form). -/
theorem spec_claim_C10 (homedir : String) (h1 : homedir ≠ "")
    (h2 : normalizePath homedir = homedir) :
    fixPathPrefixes homedir ("~" ++ pathSep) = homedir := by
  rw [fixPathPrefixes_of_shorthand _ _ (by decide)]
  have hdrop : strDrop ("~" ++ pathSep) ("~" ++ pathSep).length = "" := rfl
  rw [hdrop, pathJoin_empty_right _ h1, h2]

theorem spec_claim_C10_witness :
    fixPathPrefixes "/home/u" ("~" ++ pathSep) = "/home/u" :=
  spec_claim_C10 "/home/u" (by decide) (by decide)

/-- A concrete snapshot used in witnesses. -/
def snapA : TypeScriptServiceConfiguration where
  locale := none
  globalTsdk := some "/home/u/sdks/ts"
  localTsdk := none
  npmLocation := none
  tsServerLogLevel := .Off
  tsServerPluginPaths := ["p"]
  checkJs := false
  experimentalDecorators := false
  implicitStrictNullChecks := true
  implicitStrictFunctionTypes := true
  disableAutomaticTypeAcquisition := false
  separateSyntaxServer := .Enabled
  enableProjectDiagnostics := false
  maxTsServerMemory := 3072
  enablePromptUseWorkspaceTsdk := false
  watchOptions :=
    some (.obj [("watchFile", .str "x"), ("watchDirectory", .str "y")])
  includePackageJsonAutoImports := none

/-- `snapA` with the watch-options keys in the other insertion order. -/
def snapB : TypeScriptServiceConfiguration :=
  { snapA with
    watchOptions :=
      some (.obj [("watchDirectory", .str "y"), ("watchFile", .str "x")]) }

/-- C1: `isEqualTo` is true iff every one of the 17 §3 fields compares
equal — primitives by value identity, `pluginPaths` by ordered element-wise
sequence equality (order-sensitive), `watchOptions` by deep structural
equality that treats absent-on-both-sides as equal, ignores the insertion
order of mapping keys, and is sensitive to differing values; no field is
excluded from the conjunction. -/
theorem spec_claim_C1 :
    (∀ a b : TypeScriptServiceConfiguration,
       a.isEqualTo b = true ↔
         (a.locale = b.locale ∧ a.globalTsdk = b.globalTsdk ∧
          a.localTsdk = b.localTsdk ∧ a.npmLocation = b.npmLocation ∧
          a.tsServerLogLevel = b.tsServerLogLevel ∧ a.checkJs = b.checkJs ∧
          a.experimentalDecorators = b.experimentalDecorators ∧
          a.implicitStrictNullChecks = b.implicitStrictNullChecks ∧
          a.implicitStrictFunctionTypes = b.implicitStrictFunctionTypes ∧
          a.disableAutomaticTypeAcquisition =
            b.disableAutomaticTypeAcquisition ∧
          a.tsServerPluginPaths = b.tsServerPluginPaths ∧
          a.separateSyntaxServer = b.separateSyntaxServer ∧
          a.enableProjectDiagnostics = b.enableProjectDiagnostics ∧
          a.maxTsServerMemory = b.maxTsServerMemory ∧
          objectsEquals a.watchOptions b.watchOptions = true ∧
          a.enablePromptUseWorkspaceTsdk = b.enablePromptUseWorkspaceTsdk ∧
          a.includePackageJsonAutoImports =
            b.includePackageJsonAutoImports)) ∧
    arraysEquals ["a", "b"] ["b", "a"] = false ∧
    objectsEquals none none = true ∧
    objectsEquals
        (some (.obj [("watchFile", .str "x"), ("watchDirectory", .str "y")]))
        (some (.obj [("watchDirectory", .str "y"), ("watchFile", .str "x")])) =
      true ∧
    objectsEquals (some (.obj [("watchFile", .str "x")]))
        (some (.obj [("watchFile", .str "z")])) = false :=
  ⟨isEqualTo_eq_true_iff, by decide, rfl, by decide, by decide⟩

theorem spec_claim_C1_witness : snapA.isEqualTo snapB = true :=
  (spec_claim_C1.1 snapA snapB).mpr
    ⟨rfl, rfl, rfl, rfl, rfl, rfl, rfl, rfl, rfl, rfl, rfl, rfl, rfl, rfl,
     by decide, rfl, rfl⟩

theorem isEqualTo_refl (a : TypeScriptServiceConfiguration)
    (hw : wfOpt a.watchOptions = true) : a.isEqualTo a = true :=
  (isEqualTo_eq_true_iff a a).mpr
    ⟨rfl, rfl, rfl, rfl, rfl, rfl, rfl, rfl, rfl, rfl, rfl, rfl, rfl, rfl,
     objectsEquals_refl _ hw, rfl, rfl⟩

theorem isEqualTo_symm_mp (a b : TypeScriptServiceConfiguration)
    (ha : wfOpt a.watchOptions = true) (hb : wfOpt b.watchOptions = true)
    (h : a.isEqualTo b = true) : b.isEqualTo a = true := by
  obtain ⟨h1, h2, h3, h4, h5, h6, h7, h8, h9, h10,
    h11, h12, h13, h14, h15, h16, h17⟩ := (isEqualTo_eq_true_iff a b).mp h
  refine (isEqualTo_eq_true_iff b a).mpr
    ⟨h1.symm, h2.symm, h3.symm, h4.symm, h5.symm, h6.symm, h7.symm, h8.symm,
     h9.symm, h10.symm, h11.symm, h12.symm, h13.symm, h14.symm, ?_,
     h16.symm, h17.symm⟩
  rw [← objectsEquals_symm _ _ ha hb]
  exact h15

theorem isEqualTo_eq_false_of {a b : TypeScriptServiceConfiguration}
    (hcomp : a.isEqualTo b = true → False) : a.isEqualTo b = false := by
  cases h : TypeScriptServiceConfiguration.isEqualTo a b with
  | true => exact (hcomp h).elim
  | false => rfl

/-- C7: `isEqualTo` is reflexive and symmetric (for snapshots whose watch
options are JavaScript-representable, i.e. without duplicate object keys),
snapshots built from the same raw settings always compare equal (construction
is pure, so construction time is irrelevant), and the predicate is sensitive
to every one of the 17 fields: a difference in any single field makes it
false. -/
theorem spec_claim_C7 :
    (∀ a : TypeScriptServiceConfiguration, wfOpt a.watchOptions = true →
       a.isEqualTo a = true) ∧
    (∀ a b : TypeScriptServiceConfiguration, wfOpt a.watchOptions = true →
       wfOpt b.watchOptions = true → a.isEqualTo b = b.isEqualTo a) ∧
    (∀ (homedir : String) (c : WorkspaceConfiguration),
       wfOpt (readWatchOptions c) = true →
       (TypeScriptServiceConfiguration.loadFromWorkspace homedir c).isEqualTo
         (TypeScriptServiceConfiguration.loadFromWorkspace homedir c) =
         true) ∧
    (∀ a b : TypeScriptServiceConfiguration, a.locale ≠ b.locale →
       a.isEqualTo b = false) ∧
    (∀ a b : TypeScriptServiceConfiguration, a.globalTsdk ≠ b.globalTsdk →
       a.isEqualTo b = false) ∧
    (∀ a b : TypeScriptServiceConfiguration, a.localTsdk ≠ b.localTsdk →
       a.isEqualTo b = false) ∧
    (∀ a b : TypeScriptServiceConfiguration, a.npmLocation ≠ b.npmLocation →
       a.isEqualTo b = false) ∧
    (∀ a b : TypeScriptServiceConfiguration,
       a.tsServerLogLevel ≠ b.tsServerLogLevel → a.isEqualTo b = false) ∧
    (∀ a b : TypeScriptServiceConfiguration, a.checkJs ≠ b.checkJs →
       a.isEqualTo b = false) ∧
    (∀ a b : TypeScriptServiceConfiguration,
       a.experimentalDecorators ≠ b.experimentalDecorators →
       a.isEqualTo b = false) ∧
    (∀ a b : TypeScriptServiceConfiguration,
       a.implicitStrictNullChecks ≠ b.implicitStrictNullChecks →
       a.isEqualTo b = false) ∧
    (∀ a b : TypeScriptServiceConfiguration,
       a.implicitStrictFunctionTypes ≠ b.implicitStrictFunctionTypes →
       a.isEqualTo b = false) ∧
    (∀ a b : TypeScriptServiceConfiguration,
       a.disableAutomaticTypeAcquisition ≠ b.disableAutomaticTypeAcquisition →
       a.isEqualTo b = false) ∧
    (∀ a b : TypeScriptServiceConfiguration,
       a.tsServerPluginPaths ≠ b.tsServerPluginPaths →
       a.isEqualTo b = false) ∧
    (∀ a b : TypeScriptServiceConfiguration,
       a.separateSyntaxServer ≠ b.separateSyntaxServer →
       a.isEqualTo b = false) ∧
    (∀ a b : TypeScriptServiceConfiguration,
       a.enableProjectDiagnostics ≠ b.enableProjectDiagnostics →
       a.isEqualTo b = false) ∧
    (∀ a b : TypeScriptServiceConfiguration,
       a.maxTsServerMemory ≠ b.maxTsServerMemory → a.isEqualTo b = false) ∧
    (∀ a b : TypeScriptServiceConfiguration,
       objectsEquals a.watchOptions b.watchOptions = false →
       a.isEqualTo b = false) ∧
    (∀ a b : TypeScriptServiceConfiguration,
       a.enablePromptUseWorkspaceTsdk ≠ b.enablePromptUseWorkspaceTsdk →
       a.isEqualTo b = false) ∧
    (∀ a b : TypeScriptServiceConfiguration,
       a.includePackageJsonAutoImports ≠ b.includePackageJsonAutoImports →
       a.isEqualTo b = false) := by
  refine ⟨isEqualTo_refl, ?_, fun homedir c hw => isEqualTo_refl _ hw,
    fun a b hne => isEqualTo_eq_false_of
      (fun h => hne ((isEqualTo_eq_true_iff a b).mp h).1),
    fun a b hne => isEqualTo_eq_false_of
      (fun h => hne ((isEqualTo_eq_true_iff a b).mp h).2.1),
    fun a b hne => isEqualTo_eq_false_of
      (fun h => hne ((isEqualTo_eq_true_iff a b).mp h).2.2.1),
    fun a b hne => isEqualTo_eq_false_of
      (fun h => hne ((isEqualTo_eq_true_iff a b).mp h).2.2.2.1),
    fun a b hne => isEqualTo_eq_false_of
      (fun h => hne ((isEqualTo_eq_true_iff a b).mp h).2.2.2.2.1),
    fun a b hne => isEqualTo_eq_false_of
      (fun h => hne ((isEqualTo_eq_true_iff a b).mp h).2.2.2.2.2.1),
    fun a b hne => isEqualTo_eq_false_of
      (fun h => hne ((isEqualTo_eq_true_iff a b).mp h).2.2.2.2.2.2.1),
    fun a b hne => isEqualTo_eq_false_of
      (fun h => hne ((isEqualTo_eq_true_iff a b).mp h).2.2.2.2.2.2.2.1),
    fun a b hne => isEqualTo_eq_false_of
      (fun h => hne ((isEqualTo_eq_true_iff a b).mp h).2.2.2.2.2.2.2.2.1),
    fun a b hne => isEqualTo_eq_false_of
      (fun h => hne ((isEqualTo_eq_true_iff a b).mp h).2.2.2.2.2.2.2.2.2.1),
    fun a b hne => isEqualTo_eq_false_of
      (fun h => hne ((isEqualTo_eq_true_iff a b).mp h).2.2.2.2.2.2.2.2.2.2.1),
    fun a b hne => isEqualTo_eq_false_of
      (fun h =>
        hne ((isEqualTo_eq_true_iff a b).mp h).2.2.2.2.2.2.2.2.2.2.2.1),
    fun a b hne => isEqualTo_eq_false_of
      (fun h =>
        hne ((isEqualTo_eq_true_iff a b).mp h).2.2.2.2.2.2.2.2.2.2.2.2.1),
    fun a b hne => isEqualTo_eq_false_of
      (fun h =>
        hne ((isEqualTo_eq_true_iff a b).mp h).2.2.2.2.2.2.2.2.2.2.2.2.2.1),
    fun a b hne => isEqualTo_eq_false_of
      (fun h => Bool.false_ne_true (hne.symm.trans
        ((isEqualTo_eq_true_iff a b).mp h).2.2.2.2.2.2.2.2.2.2.2.2.2.2.1)),
    fun a b hne => isEqualTo_eq_false_of
      (fun h =>
        hne ((isEqualTo_eq_true_iff a b).mp h).2.2.2.2.2.2.2.2.2.2.2.2.2.2.2.1),
    fun a b hne => isEqualTo_eq_false_of
      (fun h =>
        hne
          ((isEqualTo_eq_true_iff a b).mp h).2.2.2.2.2.2.2.2.2.2.2.2.2.2.2.2)⟩
  intro a b ha hb
  cases h1 : TypeScriptServiceConfiguration.isEqualTo a b with
  | true => exact (isEqualTo_symm_mp a b ha hb h1).symm
  | false =>
    cases h2 : TypeScriptServiceConfiguration.isEqualTo b a with
    | true =>
      have h3 := isEqualTo_symm_mp b a hb ha h2
      rw [h3] at h1
      exact h1.symm
    | false => rfl

theorem spec_claim_C7_witness : snapA.isEqualTo snapA = true :=
  spec_claim_C7.1 snapA (by decide)


